import Mathlib

/-!
# Verification of csv_mulch.py

A shallow embedding of the satellite-reentry CSV aggregation script
(src/csv_mulch.py) together with proofs about its date parser
(read_date), month arithmetic (increment_month), sorting by effective
reentry date, and the monthly bucketing loop that produces the rows of
monthly.csv.

Modelling conventions:
* Python datetime values are `PyDate`: year / month / day as naturals plus
  a time-of-day component `tod` (microseconds within the day, a single
  natural, order-isomorphic to hour/minute/second/microsecond).  The type
  carries the invariants the Python datetime class enforces and that the
  script relies on: `1 ≤ month ≤ 12` and `1 ≤ day`.
* datetime comparison is lexicographic on (year, month, day, tod).
* `datetime.now()` is modelled as an explicit parameter `now`.
* Fallible Python code returns `Option` (an uncaught ValueError is `none`)
  or `Except PyErr` for the whole pipeline, where `PyErr` distinguishes the
  ValueError / TypeError / IndexError aborts the script can hit.
-/

/-- The kinds of uncaught exceptions the script can abort with. -/
inductive PyErr where
  | valueError
  | typeError
  | indexError
deriving DecidableEq, Repr

/-- A Python `datetime` value: lexicographically ordered tuple
(year, month, day, time-of-day), with the class invariants on month and
day that the script relies on. -/
structure PyDate where
  year : Nat
  month : Nat
  day : Nat
  tod : Nat
  month_le : month ≤ 12
  month_pos : 1 ≤ month
  day_pos : 1 ≤ day

theorem PyDate.eq_of_fields {a b : PyDate} (h1 : a.year = b.year)
    (h2 : a.month = b.month) (h3 : a.day = b.day) (h4 : a.tod = b.tod) :
    a = b := by
  cases a
  cases b
  simp only at h1 h2 h3 h4
  subst h1; subst h2; subst h3; subst h4
  rfl

instance : DecidableEq PyDate := fun a b =>
  decidable_of_iff (a.year = b.year ∧ a.month = b.month ∧ a.day = b.day ∧ a.tod = b.tod)
    ⟨fun h => PyDate.eq_of_fields h.1 h.2.1 h.2.2.1 h.2.2.2,
     fun h => by subst h; exact ⟨rfl, rfl, rfl, rfl⟩⟩

/-- Python datetime comparison: lexicographic on (year, month, day, tod). -/
def pdle (a b : PyDate) : Prop :=
  a.year < b.year ∨ (a.year = b.year ∧
    (a.month < b.month ∨ (a.month = b.month ∧
      (a.day < b.day ∨ (a.day = b.day ∧ a.tod ≤ b.tod)))))

/-- Strict datetime comparison. -/
def pdlt (a b : PyDate) : Prop :=
  a.year < b.year ∨ (a.year = b.year ∧
    (a.month < b.month ∨ (a.month = b.month ∧
      (a.day < b.day ∨ (a.day = b.day ∧ a.tod < b.tod)))))

instance (a b : PyDate) : Decidable (pdle a b) :=
  inferInstanceAs (Decidable (a.year < b.year ∨ (a.year = b.year ∧
    (a.month < b.month ∨ (a.month = b.month ∧
      (a.day < b.day ∨ (a.day = b.day ∧ a.tod ≤ b.tod)))))))

instance (a b : PyDate) : Decidable (pdlt a b) :=
  inferInstanceAs (Decidable (a.year < b.year ∨ (a.year = b.year ∧
    (a.month < b.month ∨ (a.month = b.month ∧
      (a.day < b.day ∨ (a.day = b.day ∧ a.tod < b.tod)))))))

/-- Boolean form of `pdle` (the `>=` / `<=` tests the script performs). -/
def pdleb (a b : PyDate) : Bool := decide (pdle a b)

/-- Boolean form of `pdlt`. -/
def pdltb (a b : PyDate) : Bool := decide (pdlt a b)

theorem pdleb_iff {a b : PyDate} : pdleb a b = true ↔ pdle a b := by
  simp [pdleb]

theorem pdltb_iff {a b : PyDate} : pdltb a b = true ↔ pdlt a b := by
  simp [pdltb]

theorem pdleb_trans {a b c : PyDate} (h1 : pdleb a b = true)
    (h2 : pdleb b c = true) : pdleb a c = true := by
  rw [pdleb_iff] at *
  unfold pdle at *
  omega

theorem pdleb_total (a b : PyDate) : pdleb a b = true ∨ pdleb b a = true := by
  rw [pdleb_iff, pdleb_iff]
  unfold pdle
  omega

theorem not_pdle_of_pdlt {a b : PyDate} (h : pdlt a b) : ¬ pdle b a := by
  unfold pdle pdlt at *
  omega

theorem month_succ_le {m : Nat} (h1 : m ≤ 12) (h2 : ¬ m = 12) : m + 1 ≤ 12 := by
  omega

/-- `increment_month` from the script: replace the fields so the date moves
one calendar month forward, rolling the year after December. -/
def increment_month (cur_date : PyDate) : PyDate :=
  if h : cur_date.month = 12 then
    ⟨cur_date.year + 1, 1, cur_date.day, cur_date.tod,
      Nat.le_add_left 1 11, Nat.le_refl 1, cur_date.day_pos⟩
  else
    ⟨cur_date.year, cur_date.month + 1, cur_date.day, cur_date.tod,
      month_succ_le cur_date.month_le h, Nat.le_add_left 1 cur_date.month,
      cur_date.day_pos⟩

/-- Linear month index: months of year y occupy indices y*12+1 .. y*12+12. -/
def mkey (d : PyDate) : Nat := d.year * 12 + d.month

theorem increment_month_day (c : PyDate) : (increment_month c).day = c.day := by
  unfold increment_month
  split <;> rfl

theorem increment_month_tod (c : PyDate) : (increment_month c).tod = c.tod := by
  unfold increment_month
  split <;> rfl

theorem increment_month_year (c : PyDate) :
    (increment_month c).year = if c.month = 12 then c.year + 1 else c.year := by
  unfold increment_month
  split <;> simp_all

theorem increment_month_month (c : PyDate) :
    (increment_month c).month = if c.month = 12 then 1 else c.month + 1 := by
  unfold increment_month
  split <;> simp_all

theorem mkey_increment_month (c : PyDate) :
    mkey (increment_month c) = mkey c + 1 := by
  unfold mkey
  rw [increment_month_year, increment_month_month]
  split <;> omega

/-- If the next-month test of the flushing loop succeeds, the target date
lies in a strictly later month than the running month anchor. -/
theorem mkey_lt_of_flush_test {cur d : PyDate}
    (h : pdleb (increment_month cur) d = true) : mkey cur < mkey d := by
  rw [pdleb_iff] at h
  have hc12 := cur.month_le
  have hc1 := cur.month_pos
  have hd12 := d.month_le
  have hd1 := d.month_pos
  unfold pdle at h
  rw [increment_month_year, increment_month_month] at h
  unfold mkey
  by_cases h12 : cur.month = 12 <;> simp only [h12, if_true, if_false] at h <;>
    simp_all <;> omega

/-- For a month anchor (day 1, midnight), the flushing test is exactly a
strict comparison of month indices. -/
theorem flush_test_iff {cur d : PyDate} (hday : cur.day = 1)
    (htod : cur.tod = 0) :
    pdleb (increment_month cur) d = true ↔ mkey cur < mkey d := by
  constructor
  · exact mkey_lt_of_flush_test
  · intro h
    rw [pdleb_iff]
    have hc12 := cur.month_le
    have hc1 := cur.month_pos
    have hd12 := d.month_le
    have hd1 := d.month_pos
    have hdd := d.day_pos
    unfold mkey at h
    unfold pdle
    rw [increment_month_year, increment_month_month,
      increment_month_day, increment_month_tod, hday, htod]
    by_cases h12 : cur.month = 12 <;> simp only [h12, if_true, if_false] <;> omega

/-! ## The date parser (`read_date`)

`read_date` calls `datetime.strptime` with the C-locale formats
`"%Y %b %d"` and then, if that raises ValueError, `"%Y %b"`.  CPython's
`_strptime` compiles these formats to the anchored regular expression
pieces: `%Y` is exactly four digits, a space in the format is one
or more whitespace characters, `%b` is a case-insensitive month
abbreviation, and `%d` is the ordered alternation `3[01]|[12][0-9]|0[1-9]|[1-9]`.
Any unconsumed trailing input, a year 0, or a day that does not exist in
the parsed month raises ValueError.  The parsers below model exactly that,
over the character list of the input; `none` is an uncaught ValueError. -/

/-- Value of a decimal digit character. -/
def digitVal (c : Char) : Nat := c.toNat - 48

/-- Value of a string of decimal digits (most significant first). -/
def digitsVal (cs : List Char) : Nat := cs.foldl (fun a c => a * 10 + digitVal c) 0

/-- C-locale abbreviated month names, lowercased, mapped to month numbers. -/
def monthNum (cs : List Char) : Option Nat :=
  if cs = ['j', 'a', 'n'] then some 1
  else if cs = ['f', 'e', 'b'] then some 2
  else if cs = ['m', 'a', 'r'] then some 3
  else if cs = ['a', 'p', 'r'] then some 4
  else if cs = ['m', 'a', 'y'] then some 5
  else if cs = ['j', 'u', 'n'] then some 6
  else if cs = ['j', 'u', 'l'] then some 7
  else if cs = ['a', 'u', 'g'] then some 8
  else if cs = ['s', 'e', 'p'] then some 9
  else if cs = ['o', 'c', 't'] then some 10
  else if cs = ['n', 'o', 'v'] then some 11
  else if cs = ['d', 'e', 'c'] then some 12
  else none

/-- Case-insensitive match of a month abbreviation at the head of the input
(the `%b` directive). -/
def monthTok (cs : List Char) : Option Nat :=
  monthNum ((cs.take 3).map Char.toLower)

/-- The `%d` directive: the ordered regex alternation
`3[01]|[12][0-9]|0[1-9]|[1-9]`, returning the day value and the rest of
the input. -/
def parseDay : List Char → Option (Nat × List Char)
  | [] => none
  | c1 :: rest1 =>
    match rest1 with
    | c2 :: rest2 =>
      if c1.isDigit ∧ c2.isDigit ∧
          ((digitVal c1 = 3 ∧ digitVal c2 ≤ 1) ∨ digitVal c1 = 1 ∨
            digitVal c1 = 2 ∨ (digitVal c1 = 0 ∧ 1 ≤ digitVal c2)) then
        some (digitVal c1 * 10 + digitVal c2, rest2)
      else if c1.isDigit ∧ 1 ≤ digitVal c1 then some (digitVal c1, rest1)
      else none
    | [] => if c1.isDigit ∧ 1 ≤ digitVal c1 then some (digitVal c1, []) else none

/-- Gregorian leap-year rule used by `datetime`. -/
def isLeap (y : Nat) : Bool := y % 4 = 0 ∧ (y % 100 ≠ 0 ∨ y % 400 = 0)

/-- Number of days of month m in year y (the `datetime` day validation). -/
def daysInMonth (y m : Nat) : Nat :=
  if m = 2 then (if isLeap y then 29 else 28)
  else if m = 4 ∨ m = 6 ∨ m = 9 ∨ m = 11 then 30
  else 31

/-- Shared front of both formats: `%Y`, mandatory whitespace, `%b`.
Returns the year value, month number, and the input after the month. -/
def parseYMcore (cs : List Char) : Option (Nat × Nat × List Char) :=
  let ys := cs.takeWhile Char.isDigit
  let r1 := cs.dropWhile Char.isDigit
  if ys.length ≠ 4 then none
  else if (r1.takeWhile Char.isWhitespace).length = 0 then none
  else
    let r2 := r1.dropWhile Char.isWhitespace
    match monthTok r2 with
    | none => none
    | some m => some (digitsVal ys, m, r2.drop 3)

/-- `datetime.strptime(s, "%Y %b %d")`: year, whitespace, month, whitespace,
day, end of input, with the `datetime` range validation. -/
def parseYMD (cs : List Char) : Option PyDate :=
  match parseYMcore cs with
  | none => none
  | some (y, m, r3) =>
    if (r3.takeWhile Char.isWhitespace).length = 0 then none
    else
      match parseDay (r3.dropWhile Char.isWhitespace) with
      | none => none
      | some (d, r5) =>
        if h : r5 = [] ∧ 1 ≤ y ∧ (1 ≤ m ∧ m ≤ 12) ∧ (1 ≤ d ∧ d ≤ daysInMonth y m) then
          some ⟨y, m, d, 0, h.2.2.1.2, h.2.2.1.1, h.2.2.2.1⟩
        else none

/-- `datetime.strptime(s, "%Y %b")`: year, whitespace, month, end of input;
the day defaults to 1. -/
def parseYM (cs : List Char) : Option PyDate :=
  match parseYMcore cs with
  | none => none
  | some (y, m, r3) =>
    if h : r3 = [] ∧ 1 ≤ y ∧ (1 ≤ m ∧ m ≤ 12) then
      some ⟨y, m, 1, 0, h.2.2.2, h.2.2.1, Nat.le_refl 1⟩
    else none

/-- The value of a parsed date field: a concrete datetime or a string
sentinel passed through unchanged. -/
inductive PyVal where
  | vdate (d : PyDate)
  | vstr (s : String)
deriving DecidableEq

/-- Strip one trailing question mark, as `read_date` does before parsing. -/
def stripQL (cs : List Char) : List Char :=
  if cs.getLast? = some '?' then cs.dropLast else cs

/-- `read_date` over the character list of its input: empty input maps to
the unknown sentinel, the `*` and `-` sentinels pass through, a trailing
`?` is stripped, then the day-precision format is tried and, on failure,
the month-precision format; `none` is the uncaught ValueError when both
formats fail. -/
def read_dateL (cs : List Char) : Option PyVal :=
  if cs = [] then some (.vstr "-")
  else if cs = ['*'] ∨ cs = ['-'] then some (.vstr (String.mk cs))
  else
    match parseYMD (stripQL cs) with
    | some dt => some (.vdate dt)
    | none =>
      match parseYM (stripQL cs) with
      | some dt => some (.vdate dt)
      | none => none

/-- `read_date` from the script. -/
def read_date (s : String) : Option PyVal := read_dateL s.data

/-- One row of the input CSV, restricted to its three date fields (the
other fields pass through untouched and play no role in the claims). -/
structure RawRow where
  launchS : String
  failS : String
  reentryS : String

/-- One parsed launch record: the three date fields after `read_date`. -/
structure Launch where
  launchD : PyVal
  failD : PyVal
  reentry : PyVal
deriving DecidableEq

/-- Parsing of one CSV row inside `read_csv`'s loop. -/
def read_row (r : RawRow) : Option Launch :=
  match read_date r.launchS, read_date r.failS, read_date r.reentryS with
  | some a, some b, some c => some ⟨a, b, c⟩
  | _, _, _ => none

/-- `read_csv`: parse every row; an uncaught ValueError in any row aborts
the whole run. -/
def read_csv : List RawRow → Option (List Launch)
  | [] => some []
  | r :: rs =>
    match read_row r, read_csv rs with
    | some l, some ls => some (l :: ls)
    | _, _ => none

/-! ## Rendering

`strftime` style formatting used for the output Month column and for the
round-trip properties of the parser. -/

/-- Decimal digits of a natural number (most significant first); the fuel
argument is an upper bound on the number of digits. -/
def digitsAux : Nat → Nat → List Char
  | 0, _ => []
  | fuel + 1, n =>
    if n < 10 then [Nat.digitChar n]
    else digitsAux fuel (n / 10) ++ [Nat.digitChar (n % 10)]

/-- Full decimal rendering of a natural number. -/
def natStr (n : Nat) : List Char := digitsAux (n + 1) n

/-- Two-digit zero-padded rendering (`%d`, `%m`; both arguments are at
most 31 in every reachable use). -/
def pad2 (n : Nat) : String :=
  String.mk [Nat.digitChar (n / 10 % 10), Nat.digitChar (n % 10)]

/-- `%Y`: zero-padded to four digits (datetime years never exceed 9999;
larger naturals of the model render in full). -/
def pad4 (y : Nat) : String :=
  if y < 10000 then
    String.mk [Nat.digitChar (y / 1000), Nat.digitChar (y / 100 % 10),
      Nat.digitChar (y / 10 % 10), Nat.digitChar (y % 10)]
  else String.mk (natStr y)

/-- C-locale abbreviated month name (`%b` output). -/
def monthName (m : Nat) : String :=
  match m with
  | 1 => "Jan"
  | 2 => "Feb"
  | 3 => "Mar"
  | 4 => "Apr"
  | 5 => "May"
  | 6 => "Jun"
  | 7 => "Jul"
  | 8 => "Aug"
  | 9 => "Sep"
  | 10 => "Oct"
  | 11 => "Nov"
  | 12 => "Dec"
  | _ => ""

/-- The day-precision date rendering `"YYYY Mon DD"`. -/
def renderYMD (y m d : Nat) : String :=
  pad4 y ++ " " ++ monthName m ++ " " ++ pad2 d

/-- The month-precision date rendering `"YYYY Mon"`. -/
def renderYM (y m : Nat) : String :=
  pad4 y ++ " " ++ monthName m

/-- `strftime("%d/%m/%Y")`, the Month column format of monthly.csv. -/
def fmtDMY (d : PyDate) : String :=
  pad2 d.day ++ "/" ++ pad2 d.month ++ "/" ++ pad4 d.year

/-- The Month string of a bucket for month m of year y (day always 01). -/
def mfmt (y m : Nat) : String :=
  pad2 1 ++ "/" ++ pad2 m ++ "/" ++ pad4 y

/-! ## The aggregation pipeline -/

/-- The constant the script multiplies monthly reentry counts by. -/
def AL_CONST : Nat := 143

/-- One row of monthly.csv (under the header `Month,Reentered,Al`). -/
structure OutRow where
  Month : String
  Reentered : Nat
  Al : Nat
deriving DecidableEq, Repr

/-- `reentry_date`: the sort key of a launch; the unknown sentinel `-` is
replaced by the current time, everything else (a concrete date, or the
untouched `*` sentinel string) is returned unchanged. -/
def reentry_date (now : PyDate) (l : Launch) : PyVal :=
  if l.reentry = PyVal.vstr "-" then PyVal.vdate now else l.reentry

/-- The loop's termination test `launch["Reentry Date"] == "-"`. -/
def isUnknown (l : Launch) : Bool := l.reentry = PyVal.vstr "-"

/-- Whether the sort key of a launch is a datetime (as opposed to a
string, which only the wildcard sentinel `*` produces). -/
def isDateKey (now : PyDate) (l : Launch) : Bool :=
  match reentry_date now l with
  | PyVal.vdate _ => true
  | PyVal.vstr _ => false

/-- Comparison of sort keys, as a relation on launches.  Two datetime keys
compare as datetimes; two string keys are reachable only as the literal
`*`, hence equal, so their order is irrelevant and they compare as equal
(always ≤).  The cross-type cases never arise inside a sort that does not
raise; they are totalised (string before date) so that the relation is
total and transitive. -/
def keyLeB (now : PyDate) (a b : Launch) : Bool :=
  match reentry_date now a, reentry_date now b with
  | PyVal.vdate x, PyVal.vdate y => pdleb x y
  | PyVal.vstr _, _ => true
  | PyVal.vdate _, PyVal.vstr _ => false

/-- The key comparison as a relation, for the sort. -/
def keyLe (now : PyDate) (a b : Launch) : Prop := keyLeB now a b = true

instance (now : PyDate) (a b : Launch) : Decidable (keyLe now a b) :=
  inferInstanceAs (Decidable (keyLeB now a b = true))

/-- `sorted(read_csv("output.csv"), key=reentry_date)`.  CPython's sort is
stable; it raises TypeError exactly when it compares a str key with a
datetime key, which happens whenever the list holds both kinds (any sort
of two or more elements relates every element to some other one), and
never otherwise.  A homogeneous list is stably sorted; `insertionSort`
with the reflexive-on-equal-keys relation `keyLe` computes exactly the
stable order. -/
def pySorted (now : PyDate) (launches : List Launch) : Except PyErr (List Launch) :=
  if launches.all (fun l => isDateKey now l) ∨ launches.all (fun l => !isDateKey now l) then
    Except.ok (launches.insertionSort (keyLe now))
  else Except.error PyErr.typeError

/-- `.replace(day=1)`: the start-of-month anchor. -/
def dayOne (d : PyDate) : PyDate :=
  ⟨d.year, d.month, 1, d.tod, d.month_le, d.month_pos, Nat.le_refl 1⟩

/-- The dictionary appended to `monthly_totals` for one finished month. -/
def mkRow (cur_date : PyDate) (cur_month_total : Nat) : OutRow :=
  ⟨fmtDMY cur_date, cur_month_total, cur_month_total * AL_CONST⟩

/-- The inner `while reentry_date(launch) >= increment_month(cur_date)`
loop, flushing finished months.  The fuel argument bounds the number of
iterations; `flushLoop` supplies fuel that is exact, so this equals the
Python loop (each iteration advances `mkey cur` by one, and the loop
condition forces `mkey cur < mkey d`). -/
def flushLoopF : Nat → PyDate → PyDate → Nat → List OutRow × PyDate × Nat
  | 0, _, cur, tot => ([], cur, tot)
  | fuel + 1, d, cur, tot =>
    if pdleb (increment_month cur) d = true then
      let r := flushLoopF fuel d (increment_month cur) 0
      (mkRow cur tot :: r.1, r.2.1, r.2.2)
    else ([], cur, tot)

/-- The flushing while-loop: returns the appended rows, the new month
anchor, and the new running total. -/
def flushLoop (d cur : PyDate) (tot : Nat) : List OutRow × PyDate × Nat :=
  flushLoopF (mkey d + 1 - mkey cur) d cur tot

/-- The main `for launch in launches` loop: stop at the first still-in-orbit
record, otherwise flush any finished months and count the launch into the
running month.  A string sort key other than `-` (i.e. the wildcard `*`)
makes the `>=` comparison raise TypeError. -/
def aggLoop (now : PyDate) : List Launch → PyDate → Nat → Except PyErr (List OutRow)
  | [], _, _ => Except.ok []
  | l :: ls, cur, tot =>
    if l.reentry = PyVal.vstr "-" then Except.ok []
    else
      match reentry_date now l with
      | PyVal.vstr _ => Except.error PyErr.typeError
      | PyVal.vdate d =>
        let r := flushLoop d cur tot
        (aggLoop now ls r.2.1 (r.2.2 + 1)).map (fun rest => r.1 ++ rest)

/-- Lines 100-131 of the script: sort the records by effective reentry
date, anchor the running month at the first record's month (an IndexError
on an empty list, a TypeError if that record's key is the `*` string), and
run the aggregation loop. -/
def monthly_totals (now : PyDate) (launches : List Launch) : Except PyErr (List OutRow) :=
  match pySorted now launches with
  | Except.error e => Except.error e
  | Except.ok [] => Except.error PyErr.indexError
  | Except.ok (l0 :: rest) =>
    match reentry_date now l0 with
    | PyVal.vstr _ => Except.error PyErr.typeError
    | PyVal.vdate d0 => aggLoop now (l0 :: rest) (dayOne d0) 0

/-- The whole script: parse the CSV rows (an uncaught ValueError aborts),
then aggregate. -/
def program (now : PyDate) (rows : List RawRow) : Except PyErr (List OutRow) :=
  match read_csv rows with
  | none => Except.error PyErr.valueError
  | some launches => monthly_totals now launches

/-! ## Helper lemmas: digits, spans, and the parser on rendered dates -/

theorem digitChar_digit {k : Nat} (h : k < 10) :
    (Nat.digitChar k).isDigit = true := by
  interval_cases k <;> decide

theorem digitVal_digitChar {k : Nat} (h : k < 10) :
    digitVal (Nat.digitChar k) = k := by
  interval_cases k <;> decide

theorem digitChar_not_ws {k : Nat} (h : k < 10) :
    (Nat.digitChar k).isWhitespace = false := by
  interval_cases k <;> decide

theorem digitChar_ne_q {k : Nat} (h : k < 10) : Nat.digitChar k ≠ '?' := by
  interval_cases k <;> decide

theorem takeWhile_append_cons {p : Char → Bool} (xs : List Char) (y : Char)
    (ys : List Char) (hxs : ∀ x ∈ xs, p x = true) (hy : p y = false) :
    (xs ++ y :: ys).takeWhile p = xs ∧ (xs ++ y :: ys).dropWhile p = y :: ys := by
  induction xs with
  | nil => simp [List.takeWhile_cons, List.dropWhile_cons, hy]
  | cons a xs ih =>
    have ha : p a = true := hxs a (by simp)
    have ih2 := ih (fun x hx => hxs x (by simp [hx]))
    simp [List.takeWhile_cons, List.dropWhile_cons, ha, ih2.1, ih2.2]

theorem daysInMonth_le (y m : Nat) : daysInMonth y m ≤ 31 := by
  unfold daysInMonth
  split_ifs <;> omega

theorem pad4_data {y : Nat} (hy : y < 10000) :
    (pad4 y).data = [Nat.digitChar (y / 1000), Nat.digitChar (y / 100 % 10),
      Nat.digitChar (y / 10 % 10), Nat.digitChar (y % 10)] := by
  rw [pad4, if_pos hy]

theorem parseYMcore_shape (y m : Nat) (M1 M2 M3 : Char) (tail : List Char)
    (hy : y < 10000)
    (hM1 : M1.isWhitespace = false)
    (hmn : monthNum (List.map Char.toLower [M1, M2, M3]) = some m) :
    parseYMcore ((pad4 y).data ++ ' ' :: M1 :: M2 :: M3 :: tail) =
      some (y, m, tail) := by
  have h1 : y / 1000 < 10 := by omega
  have h2 : y / 100 % 10 < 10 := by omega
  have h3 : y / 10 % 10 < 10 := by omega
  have h4 : y % 10 < 10 := by omega
  rw [pad4_data hy]
  have hdig : ∀ x ∈ [Nat.digitChar (y / 1000), Nat.digitChar (y / 100 % 10),
      Nat.digitChar (y / 10 % 10), Nat.digitChar (y % 10)], x.isDigit = true := by
    intro x hx
    simp only [List.mem_cons, List.not_mem_nil, or_false] at hx
    rcases hx with h | h | h | h <;> rw [h] <;>
      [exact digitChar_digit h1; exact digitChar_digit h2;
       exact digitChar_digit h3; exact digitChar_digit h4]
  obtain ⟨ht, hd⟩ := takeWhile_append_cons _ ' ' (M1 :: M2 :: M3 :: tail) hdig
    (by decide)
  have hws : ∀ x ∈ [' '], x.isWhitespace = true := by
    intro x hx
    simp only [List.mem_singleton] at hx
    rw [hx]
    decide
  obtain ⟨ht2, hd2⟩ := takeWhile_append_cons [' '] M1 (M2 :: M3 :: tail) hws hM1
  simp only [List.singleton_append] at ht2 hd2
  unfold parseYMcore
  rw [ht, hd]
  simp only [List.length_cons, List.length_nil]
  rw [if_neg (by omega), ht2, hd2, if_neg (by simp)]
  unfold monthTok
  simp only [List.take_succ_cons, List.take_zero]
  rw [hmn]
  simp only [List.drop_succ_cons, List.drop_zero, Option.some.injEq,
    Prod.mk.injEq, and_true, true_and, and_self]
  unfold digitsVal
  simp only [List.foldl_cons, List.foldl_nil]
  rw [digitVal_digitChar h1, digitVal_digitChar h2, digitVal_digitChar h3,
    digitVal_digitChar h4]
  omega

theorem parseDay_pad2 (d : Nat) (h1 : 1 ≤ d) (h31 : d ≤ 31) :
    parseDay ((pad2 d).data) = some (d, []) := by
  have ha : d / 10 % 10 < 10 := by omega
  have hb : d % 10 < 10 := by omega
  unfold pad2 parseDay
  simp only
  rw [if_pos]
  · simp only [Option.some.injEq, Prod.mk.injEq, and_true]
    rw [digitVal_digitChar ha, digitVal_digitChar hb]
    omega
  · refine ⟨digitChar_digit ha, digitChar_digit hb, ?_⟩
    rw [digitVal_digitChar ha, digitVal_digitChar hb]
    omega

theorem pad2_data (d : Nat) :
    (pad2 d).data = [Nat.digitChar (d / 10 % 10), Nat.digitChar (d % 10)] := rfl

theorem read_dateL_ymd (y m d : Nat) (M1 M2 M3 : Char)
    (hy1 : 1 ≤ y) (hy : y < 10000) (hm1 : 1 ≤ m) (hm2 : m ≤ 12)
    (hd1 : 1 ≤ d) (hd2 : d ≤ daysInMonth y m)
    (hM1 : M1.isWhitespace = false)
    (hmn : monthNum (List.map Char.toLower [M1, M2, M3]) = some m) :
    read_dateL ((pad4 y).data ++ ' ' :: M1 :: M2 :: M3 :: ' ' :: (pad2 d).data)
        = some (PyVal.vdate ⟨y, m, d, 0, hm2, hm1, hd1⟩) ∧
      read_dateL (((pad4 y).data ++ ' ' :: M1 :: M2 :: M3 :: ' ' :: (pad2 d).data)
          ++ ['?'])
        = some (PyVal.vdate ⟨y, m, d, 0, hm2, hm1, hd1⟩) := by
  have ha10 : d / 10 % 10 < 10 := by omega
  have hb10 : d % 10 < 10 := by omega
  have h1 : y / 1000 < 10 := by omega
  have hd31 : d ≤ 31 := le_trans hd2 (daysInMonth_le y m)
  have hlast : ((pad4 y).data ++ ' ' :: M1 :: M2 :: M3 :: ' ' :: (pad2 d).data).getLast?
      = some (Nat.digitChar (d % 10)) := by
    rw [pad2_data,
      show (pad4 y).data ++
          ' ' :: M1 :: M2 :: M3 :: ' ' :: [Nat.digitChar (d / 10 % 10), Nat.digitChar (d % 10)]
        = ((pad4 y).data ++ [' ', M1, M2, M3, ' ', Nat.digitChar (d / 10 % 10)])
          ++ [Nat.digitChar (d % 10)] from by simp]
    exact List.getLast?_concat _
  have hstrip : stripQL ((pad4 y).data ++ ' ' :: M1 :: M2 :: M3 :: ' ' :: (pad2 d).data)
      = (pad4 y).data ++ ' ' :: M1 :: M2 :: M3 :: ' ' :: (pad2 d).data := by
    unfold stripQL
    rw [hlast, if_neg (by simp [digitChar_ne_q hb10])]
  have hymd : parseYMD ((pad4 y).data ++ ' ' :: M1 :: M2 :: M3 :: ' ' :: (pad2 d).data)
      = some (⟨y, m, d, 0, hm2, hm1, hd1⟩ : PyDate) := by
    have hcore := parseYMcore_shape y m M1 M2 M3 (' ' :: (pad2 d).data) hy hM1 hmn
    unfold parseYMD
    rw [hcore]
    rw [pad2_data]
    simp only [List.takeWhile_cons, List.dropWhile_cons]
    rw [show (' '.isWhitespace : Bool) = true from by decide,
      digitChar_not_ws ha10]
    simp only [if_true, if_false, Bool.false_eq_true, List.takeWhile_nil,
      List.length_cons, List.length_nil]
    rw [if_neg (by omega), ← pad2_data, parseDay_pad2 d hd1 hd31]
    dsimp only
    rw [dif_pos ⟨rfl, hy1, ⟨hm1, hm2⟩, ⟨hd1, hd2⟩⟩]
  refine ⟨?_, ?_⟩
  · unfold read_dateL
    rw [if_neg (by rw [pad4_data hy]; simp), if_neg (by rw [pad4_data hy]; simp),
      hstrip, hymd]
  · have hstrip2 : stripQL (((pad4 y).data ++ ' ' :: M1 :: M2 :: M3 :: ' ' :: (pad2 d).data) ++ ['?'])
        = (pad4 y).data ++ ' ' :: M1 :: M2 :: M3 :: ' ' :: (pad2 d).data := by
      unfold stripQL
      rw [List.getLast?_concat, if_pos rfl, List.dropLast_concat]
    unfold read_dateL
    rw [if_neg (by rw [pad4_data hy]; simp), if_neg (by rw [pad4_data hy]; simp),
      hstrip2, hymd]

theorem read_dateL_ym (y m : Nat) (M1 M2 M3 : Char)
    (hy1 : 1 ≤ y) (hy : y < 10000) (hm1 : 1 ≤ m) (hm2 : m ≤ 12)
    (hM1 : M1.isWhitespace = false) (hM3q : M3 ≠ '?')
    (hmn : monthNum (List.map Char.toLower [M1, M2, M3]) = some m) :
    read_dateL ((pad4 y).data ++ ' ' :: M1 :: M2 :: [M3])
        = some (PyVal.vdate ⟨y, m, 1, 0, hm2, hm1, Nat.le_refl 1⟩) ∧
      read_dateL (((pad4 y).data ++ ' ' :: M1 :: M2 :: [M3]) ++ ['?'])
        = some (PyVal.vdate ⟨y, m, 1, 0, hm2, hm1, Nat.le_refl 1⟩) := by
  have hcore := parseYMcore_shape y m M1 M2 M3 [] hy hM1 hmn
  have hymd : parseYMD ((pad4 y).data ++ ' ' :: M1 :: M2 :: [M3]) = none := by
    unfold parseYMD
    rw [hcore]
    simp [List.takeWhile_nil]
  have hym : parseYM ((pad4 y).data ++ ' ' :: M1 :: M2 :: [M3])
      = some (⟨y, m, 1, 0, hm2, hm1, Nat.le_refl 1⟩ : PyDate) := by
    unfold parseYM
    rw [hcore]
    dsimp only
    rw [dif_pos ⟨rfl, hy1, hm1, hm2⟩]
  have hlast : ((pad4 y).data ++ ' ' :: M1 :: M2 :: [M3]).getLast? = some M3 := by
    rw [show (pad4 y).data ++ ' ' :: M1 :: M2 :: [M3]
        = ((pad4 y).data ++ [' ', M1, M2]) ++ [M3] from by simp]
    exact List.getLast?_concat _
  have hstrip : stripQL ((pad4 y).data ++ ' ' :: M1 :: M2 :: [M3])
      = (pad4 y).data ++ ' ' :: M1 :: M2 :: [M3] := by
    unfold stripQL
    rw [hlast, if_neg (by simp [hM3q])]
  refine ⟨?_, ?_⟩
  · unfold read_dateL
    rw [if_neg (by rw [pad4_data hy]; simp), if_neg (by rw [pad4_data hy]; simp),
      hstrip, hymd, hym]
  · have hstrip2 : stripQL (((pad4 y).data ++ ' ' :: M1 :: M2 :: [M3]) ++ ['?'])
        = (pad4 y).data ++ ' ' :: M1 :: M2 :: [M3] := by
      unfold stripQL
      rw [List.getLast?_concat, if_pos rfl, List.dropLast_concat]
    unfold read_dateL
    rw [if_neg (by rw [pad4_data hy]; simp), if_neg (by rw [pad4_data hy]; simp),
      hstrip2, hymd, hym]

/-- The three characters of the abbreviated month name, for stating the
rendered-date shape uniformly in the month. -/
def monthChars (m : Nat) : Char × Char × Char :=
  match m with
  | 1 => ('J', 'a', 'n')
  | 2 => ('F', 'e', 'b')
  | 3 => ('M', 'a', 'r')
  | 4 => ('A', 'p', 'r')
  | 5 => ('M', 'a', 'y')
  | 6 => ('J', 'u', 'n')
  | 7 => ('J', 'u', 'l')
  | 8 => ('A', 'u', 'g')
  | 9 => ('S', 'e', 'p')
  | 10 => ('O', 'c', 't')
  | 11 => ('N', 'o', 'v')
  | 12 => ('D', 'e', 'c')
  | _ => ('X', 'X', 'X')

theorem monthName_data {m : Nat} (hm1 : 1 ≤ m) (hm2 : m ≤ 12) :
    (monthName m).data
      = [(monthChars m).1, (monthChars m).2.1, (monthChars m).2.2] := by
  interval_cases m <;> rfl

theorem monthChars_not_ws {m : Nat} (hm1 : 1 ≤ m) (hm2 : m ≤ 12) :
    (monthChars m).1.isWhitespace = false := by
  interval_cases m <;> decide

theorem monthChars_not_q {m : Nat} (hm1 : 1 ≤ m) (hm2 : m ≤ 12) :
    (monthChars m).2.2 ≠ '?' := by
  interval_cases m <;> decide

theorem monthChars_num {m : Nat} (hm1 : 1 ≤ m) (hm2 : m ≤ 12) :
    monthNum (List.map Char.toLower
      [(monthChars m).1, (monthChars m).2.1, (monthChars m).2.2]) = some m := by
  interval_cases m <;> decide

theorem renderYMD_data (y m d : Nat) (hm1 : 1 ≤ m) (hm2 : m ≤ 12) :
    (renderYMD y m d).data = (pad4 y).data ++ ' ' :: (monthChars m).1 ::
      (monthChars m).2.1 :: (monthChars m).2.2 :: ' ' :: (pad2 d).data := by
  have hs : (" " : String).data = [' '] := rfl
  simp [renderYMD, monthName_data hm1 hm2, hs]

theorem renderYM_data (y m : Nat) (hm1 : 1 ≤ m) (hm2 : m ≤ 12) :
    (renderYM y m).data = (pad4 y).data ++ ' ' :: (monthChars m).1 ::
      (monthChars m).2.1 :: [(monthChars m).2.2] := by
  have hs : (" " : String).data = [' '] := rfl
  simp [renderYM, monthName_data hm1 hm2, hs]

theorem read_row_none {r : RawRow}
    (h : read_date r.launchS = none ∨ read_date r.failS = none ∨
      read_date r.reentryS = none) : read_row r = none := by
  unfold read_row
  cases hl : read_date r.launchS <;> cases hf : read_date r.failS <;>
    cases hre : read_date r.reentryS <;> simp_all

theorem read_csv_none {rows : List RawRow} {r : RawRow} (hr : r ∈ rows)
    (h : read_row r = none) : read_csv rows = none := by
  induction rows with
  | nil => cases hr
  | cons a rs ih =>
    rcases List.mem_cons.mp hr with h1 | h1
    · subst h1
      unfold read_csv
      rw [h]
    · have h2 := ih h1
      unfold read_csv
      rw [h2]
      cases hra : read_row a <;> rfl

/-! ## Claims about the date parser and month arithmetic -/

/-- C4: `read_date` round-trips day-precision dates: for every concrete
date (year, abbreviated month, day) the rendering in the `"YYYY Mon DD"`
format parses back to exactly that date, with or without a trailing
question mark. -/
theorem claim_C4 (y m d : Nat) (hy1 : 1 ≤ y) (hy2 : y ≤ 9999)
    (hm1 : 1 ≤ m) (hm2 : m ≤ 12) (hd1 : 1 ≤ d) (hd2 : d ≤ daysInMonth y m) :
    read_date (renderYMD y m d) = some (PyVal.vdate ⟨y, m, d, 0, hm2, hm1, hd1⟩) ∧
      read_date (renderYMD y m d ++ "?")
        = some (PyVal.vdate ⟨y, m, d, 0, hm2, hm1, hd1⟩) := by
  have hy : y < 10000 := by omega
  obtain ⟨ha, hb⟩ := read_dateL_ymd y m d (monthChars m).1 (monthChars m).2.1
    (monthChars m).2.2 hy1 hy hm1 hm2 hd1 hd2 (monthChars_not_ws hm1 hm2)
    (monthChars_num hm1 hm2)
  constructor
  · unfold read_date
    rw [renderYMD_data y m d hm1 hm2]
    exact ha
  · unfold read_date
    rw [String.data_append, show ("?" : String).data = ['?'] from rfl,
      renderYMD_data y m d hm1 hm2]
    exact hb

/-- C4 witness: the round trip at 2020 Feb 29 (a leap day). -/
theorem claim_C4_witness :
    (1 ≤ 2020 ∧ 2020 ≤ 9999 ∧ 1 ≤ 2 ∧ 2 ≤ 12 ∧ 1 ≤ 29 ∧ 29 ≤ daysInMonth 2020 2) ∧
      (read_date (renderYMD 2020 2 29)
          = some (PyVal.vdate ⟨2020, 2, 29, 0, by decide, by decide, by decide⟩) ∧
        read_date (renderYMD 2020 2 29 ++ "?")
          = some (PyVal.vdate ⟨2020, 2, 29, 0, by decide, by decide, by decide⟩)) :=
  ⟨by decide, claim_C4 2020 2 29 (by decide) (by decide) (by decide) (by decide)
    (by decide) (by decide)⟩

/-- C6: every month-precision string `"YYYY Mon"` (with or without a
trailing question mark) parses to day 1 of that month; and the
day-precision format is tried first and wins whenever it matches. -/
theorem claim_C6 :
    (∀ y m (hy1 : 1 ≤ y) (hy2 : y ≤ 9999) (hm1 : 1 ≤ m) (hm2 : m ≤ 12),
      read_date (renderYM y m)
          = some (PyVal.vdate ⟨y, m, 1, 0, hm2, hm1, Nat.le_refl 1⟩) ∧
        read_date (renderYM y m ++ "?")
          = some (PyVal.vdate ⟨y, m, 1, 0, hm2, hm1, Nat.le_refl 1⟩)) ∧
    (∀ (s : String) (dt : PyDate), parseYMD (stripQL s.data) = some dt →
      read_date s = some (PyVal.vdate dt)) := by
  constructor
  · intro y m hy1 hy2 hm1 hm2
    have hy : y < 10000 := by omega
    obtain ⟨ha, hb⟩ := read_dateL_ym y m (monthChars m).1 (monthChars m).2.1
      (monthChars m).2.2 hy1 hy hm1 hm2 (monthChars_not_ws hm1 hm2)
      (monthChars_not_q hm1 hm2) (monthChars_num hm1 hm2)
    constructor
    · unfold read_date
      rw [renderYM_data y m hm1 hm2]
      exact ha
    · unfold read_date
      rw [String.data_append, show ("?" : String).data = ['?'] from rfl,
        renderYM_data y m hm1 hm2]
      exact hb
  · intro s dt h
    unfold read_date read_dateL
    by_cases h0 : s.data = []
    · exfalso
      rw [h0, show stripQL ([] : List Char) = [] from rfl,
        show parseYMD ([] : List Char) = none from rfl] at h
      exact Option.noConfusion h
    · rw [if_neg h0]
      by_cases h1 : s.data = ['*'] ∨ s.data = ['-']
      · exfalso
        rcases h1 with h1 | h1 <;> rw [h1] at h
        · rw [show parseYMD (stripQL ['*']) = none from rfl] at h
          exact Option.noConfusion h
        · rw [show parseYMD (stripQL ['-']) = none from rfl] at h
          exact Option.noConfusion h
      · rw [if_neg h1, h]

/-- C6 witness: month-precision parsing at 2020 Feb, and the day format
winning on a day-precision input. -/
theorem claim_C6_witness :
    (read_date (renderYM 2020 2)
        = some (PyVal.vdate ⟨2020, 2, 1, 0, by decide, by decide, Nat.le_refl 1⟩) ∧
      read_date (renderYM 2020 2 ++ "?")
        = some (PyVal.vdate ⟨2020, 2, 1, 0, by decide, by decide, Nat.le_refl 1⟩)) ∧
      read_date "2020 Mar 07"
        = some (PyVal.vdate ⟨2020, 3, 7, 0, by decide, by decide, by decide⟩) :=
  ⟨claim_C6.1 2020 2 (by decide) (by decide) (by decide) (by decide),
   claim_C6.2 "2020 Mar 07" ⟨2020, 3, 7, 0, by decide, by decide, by decide⟩
     (by decide)⟩

/-- C7: `increment_month` on a first-of-month date: December of year Y
maps to January 1 of year Y+1, and any month M < 12 maps to M+1 of the
same year. -/
theorem claim_C7 (d : PyDate) (hday : d.day = 1) :
    (∀ (h12 : d.month = 12),
      increment_month d
        = ⟨d.year + 1, 1, 1, d.tod, by omega, by omega, by omega⟩) ∧
    (∀ (hlt : d.month < 12),
      increment_month d
        = ⟨d.year, d.month + 1, 1, d.tod, by omega, by omega, by omega⟩) := by
  constructor
  · intro h12
    apply PyDate.eq_of_fields
    · rw [increment_month_year, if_pos h12]
    · rw [increment_month_month, if_pos h12]
    · rw [increment_month_day, hday]
    · rw [increment_month_tod]
  · intro hlt
    have h12 : ¬ d.month = 12 := by omega
    apply PyDate.eq_of_fields
    · rw [increment_month_year, if_neg h12]
    · rw [increment_month_month, if_neg h12]
    · rw [increment_month_day, hday]
    · rw [increment_month_tod]

/-- C7 witness: the year rollover at December 2018 and a plain increment
at January 2022. -/
theorem claim_C7_witness :
    increment_month ⟨2018, 12, 1, 0, by decide, by decide, by decide⟩
        = ⟨2019, 1, 1, 0, by decide, by decide, by decide⟩ ∧
      increment_month ⟨2022, 1, 1, 0, by decide, by decide, by decide⟩
        = ⟨2022, 2, 1, 0, by decide, by decide, by decide⟩ :=
  ⟨(claim_C7 ⟨2018, 12, 1, 0, by decide, by decide, by decide⟩ rfl).1 rfl,
   (claim_C7 ⟨2022, 1, 1, 0, by decide, by decide, by decide⟩ rfl).2 (by decide)⟩

/-- C5: the sentinels `-`, `*` and the empty string never raise and map to
string sentinels (empty input to the unknown sentinel `-`), which are
distinguishable from every concrete date; every other string whose
question-mark-stripped form matches neither accepted format raises, and
the resulting ValueError is caught nowhere, aborting the whole run. -/
theorem claim_C5 :
    (read_date "-" = some (PyVal.vstr "-") ∧
      read_date "*" = some (PyVal.vstr "*") ∧
      read_date "" = some (PyVal.vstr "-") ∧
      ∀ s d, PyVal.vstr s ≠ PyVal.vdate d) ∧
    (∀ s : String, s ≠ "" → s ≠ "-" → s ≠ "*" →
      parseYMD (stripQL s.data) = none → parseYM (stripQL s.data) = none →
      read_date s = none) ∧
    (∀ (now : PyDate) (rows : List RawRow) (r : RawRow), r ∈ rows →
      (read_date r.launchS = none ∨ read_date r.failS = none ∨
        read_date r.reentryS = none) →
      program now rows = Except.error PyErr.valueError) := by
  refine ⟨⟨by decide, by decide, by decide, fun s d h => PyVal.noConfusion h⟩, ?_, ?_⟩
  · intro s h0 h1 h2 hymd hym
    unfold read_date read_dateL
    rw [if_neg (show ¬ s.data = [] from fun h => h0 (String.ext h)),
      if_neg (show ¬ (s.data = ['*'] ∨ s.data = ['-']) from by
        rintro (h | h)
        · exact h2 (String.ext h)
        · exact h1 (String.ext h)),
      hymd, hym]
  · intro now rows r hr hfield
    unfold program
    rw [read_csv_none hr (read_row_none hfield)]

/-- C5 witness: the unparseable string zzz raises, and one such field
aborts the whole program run. -/
theorem claim_C5_witness :
    read_date "zzz" = none ∧
      program ⟨2026, 10, 12, 0, by decide, by decide, by decide⟩
          [⟨"-", "-", "zzz"⟩]
        = Except.error PyErr.valueError :=
  ⟨claim_C5.2.1 "zzz" (by decide) (by decide) (by decide) (by decide) (by decide),
   claim_C5.2.2 ⟨2026, 10, 12, 0, by decide, by decide, by decide⟩
     [⟨"-", "-", "zzz"⟩] ⟨"-", "-", "zzz"⟩ (by simp)
     (Or.inr (Or.inr (by decide)))⟩

/-! ## Helper lemmas: the flushing loop and the aggregation loop -/

theorem fmtDMY_day_one {d : PyDate} (hday : d.day = 1) :
    fmtDMY d = mfmt d.year d.month := by
  unfold fmtDMY mfmt
  rw [hday]

theorem flushLoopF_anchor (fuel : Nat) (d cur : PyDate) (tot : Nat) :
    (flushLoopF fuel d cur tot).2.1.day = cur.day ∧
      (flushLoopF fuel d cur tot).2.1.tod = cur.tod := by
  induction fuel generalizing cur tot with
  | zero => exact ⟨rfl, rfl⟩
  | succ f ih =>
    by_cases hc : pdleb (increment_month cur) d = true
    · simp only [flushLoopF, if_pos hc]
      have h := ih (increment_month cur) 0
      rw [increment_month_day, increment_month_tod] at h
      exact h
    · simp [flushLoopF, hc]

theorem flushLoopF_rows (fuel : Nat) (d : PyDate) :
    ∀ (cur : PyDate) (tot : Nat), cur.day = 1 →
      ∀ r ∈ (flushLoopF fuel d cur tot).1,
        r.Al = r.Reentered * AL_CONST ∧
        ∃ y m, 1 ≤ m ∧ m ≤ 12 ∧ r.Month = mfmt y m ∧ y * 12 + m < mkey d := by
  induction fuel with
  | zero => intro cur tot _ r hr; cases hr
  | succ f ih =>
    intro cur tot hday r hr
    by_cases hc : pdleb (increment_month cur) d = true
    · simp only [flushLoopF, if_pos hc] at hr
      rcases List.mem_cons.mp hr with h1 | h1
      · subst h1
        refine ⟨rfl, cur.year, cur.month, cur.month_pos, cur.month_le, ?_, ?_⟩
        · show fmtDMY cur = mfmt cur.year cur.month
          exact fmtDMY_day_one hday
        · exact mkey_lt_of_flush_test hc
      · exact ih (increment_month cur) 0
          (by rw [increment_month_day]; exact hday) r h1
    · simp only [flushLoopF, if_neg hc] at hr
      cases hr

theorem flushLoopF_zero_rows (fuel : Nat) (d : PyDate) :
    ∀ cur : PyDate, ∀ r ∈ (flushLoopF fuel d cur 0).1, r.Reentered = 0 := by
  induction fuel with
  | zero => intro cur r hr; cases hr
  | succ f ih =>
    intro cur r hr
    by_cases hc : pdleb (increment_month cur) d = true
    · simp only [flushLoopF, if_pos hc] at hr
      rcases List.mem_cons.mp hr with h1 | h1
      · subst h1
        rfl
      · exact ih (increment_month cur) r h1
    · simp only [flushLoopF, if_neg hc] at hr
      cases hr

theorem flushLoopF_length (fuel : Nat) (d : PyDate) :
    ∀ (cur : PyDate) (tot : Nat), cur.day = 1 → cur.tod = 0 →
      fuel = mkey d + 1 - mkey cur →
      (flushLoopF fuel d cur tot).1.length = mkey d - mkey cur := by
  induction fuel with
  | zero =>
    intro cur tot _ _ hf
    show ([] : List OutRow).length = mkey d - mkey cur
    simp only [List.length_nil]
    omega
  | succ f ih =>
    intro cur tot hday htod hf
    by_cases hc : pdleb (increment_month cur) d = true
    · have hlt := mkey_lt_of_flush_test hc
      simp only [flushLoopF, if_pos hc, List.length_cons]
      rw [ih (increment_month cur) 0 (by rw [increment_month_day]; exact hday)
        (by rw [increment_month_tod]; exact htod)
        (by rw [mkey_increment_month]; omega)]
      rw [mkey_increment_month]
      omega
    · have hge : ¬ mkey cur < mkey d := fun hlt =>
        absurd ((flush_test_iff hday htod).mpr hlt) (by simp [hc])
      simp only [flushLoopF, if_neg hc, List.length_nil]
      omega

theorem flushLoop_anchor (d cur : PyDate) (tot : Nat) :
    (flushLoop d cur tot).2.1.day = cur.day ∧
      (flushLoop d cur tot).2.1.tod = cur.tod :=
  flushLoopF_anchor _ d cur tot

theorem flushLoop_neg {d cur : PyDate} (tot : Nat)
    (hc : pdleb (increment_month cur) d = false) :
    flushLoop d cur tot = ([], cur, tot) := by
  unfold flushLoop
  cases hf : mkey d + 1 - mkey cur with
  | zero => rfl
  | succ n => simp only [flushLoopF, hc, Bool.false_eq_true, if_false]

theorem flushLoop_pos {d cur : PyDate} (tot : Nat)
    (hc : pdleb (increment_month cur) d = true) :
    flushLoop d cur tot = (mkRow cur tot :: (flushLoop d (increment_month cur) 0).1,
      (flushLoop d (increment_month cur) 0).2) := by
  have hlt := mkey_lt_of_flush_test hc
  unfold flushLoop
  rw [show mkey d + 1 - mkey cur = (mkey d + 1 - mkey (increment_month cur)) + 1 from by
    rw [mkey_increment_month]; omega]
  simp only [flushLoopF, if_pos hc]


theorem reentry_date_unknown {now : PyDate} {l : Launch}
    (h : l.reentry = PyVal.vstr "-") : reentry_date now l = PyVal.vdate now := by
  unfold reentry_date
  rw [if_pos h]

theorem reentry_date_not_unknown {now : PyDate} {l : Launch}
    (h : ¬ l.reentry = PyVal.vstr "-") : reentry_date now l = l.reentry := by
  unfold reentry_date
  rw [if_neg h]

theorem aggLoop_cons_unknown {now : PyDate} {l : Launch} (ls : List Launch)
    (cur : PyDate) (tot : Nat) (hu : l.reentry = PyVal.vstr "-") :
    aggLoop now (l :: ls) cur tot = Except.ok [] := by
  simp only [aggLoop, if_pos hu]

theorem aggLoop_cons_vstr {now : PyDate} {l : Launch} {s : String}
    (ls : List Launch) (cur : PyDate) (tot : Nat)
    (hu : ¬ l.reentry = PyVal.vstr "-") (hre : l.reentry = PyVal.vstr s) :
    aggLoop now (l :: ls) cur tot = Except.error PyErr.typeError := by
  simp only [aggLoop, if_neg hu]
  rw [reentry_date_not_unknown hu, hre]

theorem aggLoop_cons_vdate {now : PyDate} {l : Launch} {d : PyDate}
    (ls : List Launch) (cur : PyDate) (tot : Nat)
    (hu : ¬ l.reentry = PyVal.vstr "-") (hre : l.reentry = PyVal.vdate d) :
    aggLoop now (l :: ls) cur tot
      = (aggLoop now ls (flushLoop d cur tot).2.1
          ((flushLoop d cur tot).2.2 + 1)).map
        (fun rest => (flushLoop d cur tot).1 ++ rest) := by
  simp only [aggLoop, if_neg hu]
  rw [reentry_date_not_unknown hu, hre]

/-- Every row produced by the aggregation loop has the Al column equal to
the count times the constant, a first-of-month Month string, and sits in a
month strictly before the month of some dated record of the consumed
list. -/
theorem aggLoop_rows (now : PyDate) :
    ∀ (ls : List Launch) (cur : PyDate) (tot : Nat) (out : List OutRow),
      cur.day = 1 → aggLoop now ls cur tot = Except.ok out →
      ∀ r ∈ out, r.Al = r.Reentered * AL_CONST ∧
        ∃ y m, 1 ≤ m ∧ m ≤ 12 ∧ r.Month = mfmt y m ∧
          ∃ l ∈ ls, ∃ dd, l.reentry = PyVal.vdate dd ∧ y * 12 + m < mkey dd := by
  intro ls
  induction ls with
  | nil =>
    intro cur tot out _ hagg r hr
    injection hagg with h
    subst h
    cases hr
  | cons l ls ih =>
    intro cur tot out hday hagg r hr
    by_cases hu : l.reentry = PyVal.vstr "-"
    · rw [aggLoop_cons_unknown ls cur tot hu] at hagg
      injection hagg with h
      subst h
      cases hr
    · cases hre : l.reentry with
      | vstr s =>
        rw [aggLoop_cons_vstr ls cur tot hu hre] at hagg
        exact Except.noConfusion hagg
      | vdate d =>
        rw [aggLoop_cons_vdate ls cur tot hu hre] at hagg
        cases hrest : aggLoop now ls (flushLoop d cur tot).2.1
            ((flushLoop d cur tot).2.2 + 1) with
        | error e =>
          rw [hrest] at hagg
          exact Except.noConfusion hagg
        | ok rest =>
          rw [hrest] at hagg
          simp only [Except.map] at hagg
          injection hagg with h
          subst h
          rcases List.mem_append.mp hr with h1 | h1
          · obtain ⟨hal, y, m, hm1, hm2, hmonth, hlt⟩ :=
              flushLoopF_rows _ d cur tot hday r h1
            exact ⟨hal, y, m, hm1, hm2, hmonth,
              l, List.mem_cons_self l ls, d, hre, hlt⟩
          · obtain ⟨hal, y, m, hm1, hm2, hmonth, l2, hl2, dd, hdd, hlt⟩ :=
              ih (flushLoop d cur tot).2.1 ((flushLoop d cur tot).2.2 + 1) rest
                (by rw [(flushLoop_anchor d cur tot).1]; exact hday) hrest r h1
            exact ⟨hal, y, m, hm1, hm2, hmonth,
              l2, List.mem_cons_of_mem l hl2, dd, hdd, hlt⟩

/-- The aggregation loop never raises IndexError. -/
theorem aggLoop_ne_indexError (now : PyDate) :
    ∀ (ls : List Launch) (cur : PyDate) (tot : Nat),
      aggLoop now ls cur tot ≠ Except.error PyErr.indexError := by
  intro ls
  induction ls with
  | nil =>
    intro cur tot h
    exact Except.noConfusion h
  | cons l ls ih =>
    intro cur tot h
    by_cases hu : l.reentry = PyVal.vstr "-"
    · rw [aggLoop_cons_unknown ls cur tot hu] at h
      exact Except.noConfusion h
    · cases hre : l.reentry with
      | vstr s =>
        rw [aggLoop_cons_vstr ls cur tot hu hre] at h
        injection h with h2
        exact PyErr.noConfusion h2
      | vdate d =>
        rw [aggLoop_cons_vdate ls cur tot hu hre] at h
        cases hrest : aggLoop now ls (flushLoop d cur tot).2.1
            ((flushLoop d cur tot).2.2 + 1) with
        | error e =>
          rw [hrest] at h
          simp only [Except.map] at h
          injection h with h2
          subst h2
          exact ih _ _ hrest
        | ok rest =>
          rw [hrest] at h
          simp only [Except.map] at h
          exact Except.noConfusion h

/-- Processing stops at the first still-in-orbit record: records from the
first unknown-sentinel record on never influence the output. -/
theorem aggLoop_takeWhile (now : PyDate) :
    ∀ (ls : List Launch) (cur : PyDate) (tot : Nat),
      aggLoop now ls cur tot
        = aggLoop now (ls.takeWhile fun l => !(isUnknown l)) cur tot := by
  intro ls
  induction ls with
  | nil => intro cur tot; rfl
  | cons l ls ih =>
    intro cur tot
    by_cases hu : l.reentry = PyVal.vstr "-"
    · have hb : (!(isUnknown l)) = false := by simp [isUnknown, hu]
      rw [List.takeWhile_cons, hb]
      simp only [Bool.false_eq_true, if_false]
      rw [aggLoop_cons_unknown ls cur tot hu]
      rfl
    · have hb : (!(isUnknown l)) = true := by simp [isUnknown, hu]
      rw [List.takeWhile_cons, hb]
      simp only [if_true]
      cases hre : l.reentry with
      | vstr s =>
        rw [aggLoop_cons_vstr ls cur tot hu hre,
          aggLoop_cons_vstr (ls.takeWhile fun l => !(isUnknown l)) cur tot hu hre]
      | vdate d =>
        rw [aggLoop_cons_vdate ls cur tot hu hre,
          aggLoop_cons_vdate (ls.takeWhile fun l => !(isUnknown l)) cur tot hu hre,
          ih]

/-! ## Helper lemmas: the sort -/

instance keyLe_isTotal (now : PyDate) : IsTotal Launch (keyLe now) := by
  constructor
  intro a b
  unfold keyLe keyLeB
  cases h1 : reentry_date now a <;> cases h2 : reentry_date now b <;>
    simp only [h1, h2] <;>
    first
      | simp
      | exact pdleb_total _ _

instance keyLe_isTrans (now : PyDate) : IsTrans Launch (keyLe now) := by
  constructor
  intro a b c hab hbc
  unfold keyLe keyLeB at *
  cases h1 : reentry_date now a <;> cases h2 : reentry_date now b <;>
    cases h3 : reentry_date now c <;>
    simp only [h1, h2, h3] at hab hbc ⊢ <;>
    first
      | rfl
      | exact hab
      | exact hbc
      | exact Bool.noConfusion hab
      | exact Bool.noConfusion hbc
      | exact pdleb_trans hab hbc

theorem pySorted_perm {now : PyDate} {L out : List Launch}
    (h : pySorted now L = Except.ok out) : out.Perm L := by
  unfold pySorted at h
  split at h
  · injection h with h2
    subst h2
    exact List.perm_insertionSort (keyLe now) L
  · exact Except.noConfusion h

theorem pySorted_sorted {now : PyDate} {L out : List Launch}
    (h : pySorted now L = Except.ok out) : out.Pairwise (keyLe now) := by
  unfold pySorted at h
  split at h
  · injection h with h2
    subst h2
    exact List.sorted_insertionSort (keyLe now) L
  · exact Except.noConfusion h

theorem pySorted_homogeneous {now : PyDate} {L out : List Launch}
    (h : pySorted now L = Except.ok out) :
    L.all (fun l => isDateKey now l) = true ∨
      L.all (fun l => !isDateKey now l) = true := by
  unfold pySorted at h
  split at h
  · assumption
  · exact Except.noConfusion h

theorem pySorted_error {now : PyDate} {L : List Launch} {e : PyErr}
    (h : pySorted now L = Except.error e) : e = PyErr.typeError := by
  unfold pySorted at h
  split at h
  · exact Except.noConfusion h
  · injection h with h2
    exact h2.symm

theorem monthly_totals_error {now : PyDate} {L : List Launch} {e : PyErr}
    (hs : pySorted now L = Except.error e) :
    monthly_totals now L = Except.error e := by
  unfold monthly_totals
  rw [hs]

theorem monthly_totals_cons {now : PyDate} {L : List Launch} {l0 : Launch}
    {rest : List Launch} (hs : pySorted now L = Except.ok (l0 :: rest)) :
    monthly_totals now L = (match reentry_date now l0 with
      | PyVal.vstr _ => Except.error PyErr.typeError
      | PyVal.vdate d0 => aggLoop now (l0 :: rest) (dayOne d0) 0) := by
  unfold monthly_totals
  rw [hs]

theorem monthly_totals_ok {now : PyDate} {L : List Launch} {out : List OutRow}
    (h : monthly_totals now L = Except.ok out) :
    ∃ l0 rest d0, pySorted now L = Except.ok (l0 :: rest) ∧
      reentry_date now l0 = PyVal.vdate d0 ∧
      aggLoop now (l0 :: rest) (dayOne d0) 0 = Except.ok out := by
  unfold monthly_totals at h
  split at h
  · exact Except.noConfusion h
  · exact Except.noConfusion h
  · rename_i l0 rest heq
    split at h
    · exact Except.noConfusion h
    · rename_i d0 heq2
      exact ⟨l0, rest, d0, heq, heq2, h⟩

instance {e a : Type} [DecidableEq e] [DecidableEq a] :
    DecidableEq (Except e a) := fun x y =>
  match x, y with
  | Except.error u, Except.error v =>
    decidable_of_iff (u = v) ⟨fun h => by rw [h], fun h => by injection h⟩
  | Except.ok u, Except.ok v =>
    decidable_of_iff (u = v) ⟨fun h => by rw [h], fun h => by injection h⟩
  | Except.error _, Except.ok _ => isFalse (fun h => Except.noConfusion h)
  | Except.ok _, Except.error _ => isFalse (fun h => Except.noConfusion h)

/-! ## Concrete sample data used by witnesses -/

/-- A fixed current time for concrete runs. -/
def now0 : PyDate := ⟨2026, 10, 12, 0, by decide, by decide, by decide⟩

/-- A launch record whose only meaningful field is the reentry date. -/
def mkLaunch (v : PyVal) : Launch := ⟨PyVal.vstr "-", PyVal.vstr "-", v⟩

/-- The three-record scenario of the spec: reentries on 2020-01-05,
2020-01-20 and 2020-03-02. -/
def sampleRecs : List Launch :=
  [mkLaunch (PyVal.vdate ⟨2020, 1, 5, 0, by decide, by decide, by decide⟩),
   mkLaunch (PyVal.vdate ⟨2020, 1, 20, 0, by decide, by decide, by decide⟩),
   mkLaunch (PyVal.vdate ⟨2020, 3, 2, 0, by decide, by decide, by decide⟩)]

/-! ## Claims about the aggregation -/

/-- C1: a bucket is appended only when some dated record's effective
reentry date falls in a month strictly after the bucket's month; hence the
month of the last dated record (the maximal month present) never appears
in the output, so the final in-progress month is dropped. -/
theorem claim_C1 (now : PyDate) (L : List Launch) (out : List OutRow)
    (h : monthly_totals now L = Except.ok out) :
    ∀ r ∈ out, ∃ l ∈ L, ∃ dd, l.reentry = PyVal.vdate dd ∧
      ∃ y m, 1 ≤ m ∧ m ≤ 12 ∧ r.Month = mfmt y m ∧ y * 12 + m < mkey dd := by
  obtain ⟨l0, rest, d0, hs, hr0, hagg⟩ := monthly_totals_ok h
  intro r hr
  obtain ⟨hal, y, m, hm1, hm2, hmonth, l, hl, dd, hdd, hlt⟩ :=
    aggLoop_rows now (l0 :: rest) (dayOne d0) 0 out rfl hagg r hr
  exact ⟨l, ((pySorted_perm hs).mem_iff).mp hl, dd, hdd, y, m, hm1, hm2, hmonth, hlt⟩

/-- C1 witness: in the three-record scenario, the January 2020 bucket is
flushed only because a strictly later dated record exists. -/
theorem claim_C1_witness :
    ∃ l ∈ sampleRecs, ∃ dd, l.reentry = PyVal.vdate dd ∧
      ∃ y m, 1 ≤ m ∧ m ≤ 12 ∧
        (⟨"01/01/2020", 2, 286⟩ : OutRow).Month = mfmt y m ∧ y * 12 + m < mkey dd :=
  claim_C1 now0 sampleRecs
    [⟨"01/01/2020", 2, 286⟩, ⟨"01/02/2020", 0, 0⟩] (by decide)
    ⟨"01/01/2020", 2, 286⟩ (by decide)

/-- C8: every output row has a Month string of the shape 01/MM/YYYY (day
component always 01), a non-negative Reentered count, and Al equal to
Reentered times the constant 143. -/
theorem claim_C8 (now : PyDate) (L : List Launch) (out : List OutRow)
    (h : monthly_totals now L = Except.ok out) :
    ∀ r ∈ out, r.Al = r.Reentered * AL_CONST ∧ 0 ≤ r.Reentered ∧
      ∃ y m, 1 ≤ m ∧ m ≤ 12 ∧ r.Month = mfmt y m := by
  obtain ⟨l0, rest, d0, hs, hr0, hagg⟩ := monthly_totals_ok h
  intro r hr
  obtain ⟨hal, y, m, hm1, hm2, hmonth, _⟩ :=
    aggLoop_rows now (l0 :: rest) (dayOne d0) 0 out rfl hagg r hr
  exact ⟨hal, Nat.zero_le _, y, m, hm1, hm2, hmonth⟩

/-- C8 witness: the February 2020 bucket of the three-record scenario. -/
theorem claim_C8_witness :
    (⟨"01/02/2020", 0, 0⟩ : OutRow).Al
        = (⟨"01/02/2020", 0, 0⟩ : OutRow).Reentered * AL_CONST ∧
      0 ≤ (⟨"01/02/2020", 0, 0⟩ : OutRow).Reentered ∧
      ∃ y m, 1 ≤ m ∧ m ≤ 12 ∧ (⟨"01/02/2020", 0, 0⟩ : OutRow).Month = mfmt y m :=
  claim_C8 now0 sampleRecs
    [⟨"01/01/2020", 2, 286⟩, ⟨"01/02/2020", 0, 0⟩] (by decide)
    ⟨"01/02/2020", 0, 0⟩ (by decide)

/-- C9: on an empty record list the program fails with IndexError at the
first-element access, before the loop and before producing any output; on
a non-empty list that access never raises IndexError. -/
theorem claim_C9 (now : PyDate) :
    monthly_totals now [] = Except.error PyErr.indexError ∧
      ∀ L : List Launch, L ≠ [] →
        monthly_totals now L ≠ Except.error PyErr.indexError := by
  constructor
  · rfl
  · intro L hL h
    unfold monthly_totals at h
    split at h
    · rename_i e heq
      injection h with h2
      rw [pySorted_error heq] at h2
      exact PyErr.noConfusion h2
    · rename_i heq
      exact hL (List.Perm.eq_nil (pySorted_perm heq).symm)
    · rename_i l0 rest heq
      split at h
      · rename_i s heq2
        injection h with h2
        exact PyErr.noConfusion h2
      · rename_i d0 heq2
        exact aggLoop_ne_indexError now (l0 :: rest) (dayOne d0) 0 h

/-- C9 witness: the empty run fails with IndexError, a one-record run does
not. -/
theorem claim_C9_witness :
    monthly_totals now0 [] = Except.error PyErr.indexError ∧
      monthly_totals now0 sampleRecs ≠ Except.error PyErr.indexError :=
  ⟨(claim_C9 now0).1, (claim_C9 now0).2 sampleRecs (by decide)⟩

/-- C10: the wildcard sentinel does not survive the Reentry Date field:
any input containing a record whose reentry field is the string `*` makes
the run abort with TypeError before any output — either the sort compares
the string key with a datetime key, or the all-string-keyed first record's
value is used as a date for the month anchor. -/
theorem claim_C10 (now : PyDate) (L : List Launch) (l : Launch)
    (hl : l ∈ L) (hstar : l.reentry = PyVal.vstr "*") :
    monthly_totals now L = Except.error PyErr.typeError := by
  have hne : ¬ l.reentry = PyVal.vstr "-" := by
    rw [hstar]
    intro h
    injection h with h2
    exact absurd h2 (by decide)
  have hkey : reentry_date now l = PyVal.vstr "*" := by
    rw [reentry_date_not_unknown hne, hstar]
  have hnd : isDateKey now l = false := by
    unfold isDateKey
    rw [hkey]
  have hnall : ¬ L.all (fun l => isDateKey now l) = true := by
    intro hall
    have h2 := List.all_eq_true.mp hall l hl
    rw [hnd] at h2
    exact Bool.noConfusion h2
  by_cases hallstr : L.all (fun l => !isDateKey now l) = true
  · have hsort_ok : pySorted now L
        = Except.ok (List.insertionSort (keyLe now) L) := by
      unfold pySorted
      rw [if_pos (Or.inr hallstr)]
    cases hsort : List.insertionSort (keyLe now) L with
    | nil =>
      exfalso
      have hlen : (List.insertionSort (keyLe now) L).length = L.length :=
        List.length_insertionSort _ _
      rw [hsort] at hlen
      cases L with
      | nil => cases hl
      | cons a as => exact absurd hlen.symm (by simp)
    | cons l0 rest =>
      have hs : pySorted now L = Except.ok (l0 :: rest) := by
        rw [hsort_ok, hsort]
      have hl0 : l0 ∈ L := by
        have hmem : l0 ∈ List.insertionSort (keyLe now) L := by
          rw [hsort]
          exact List.mem_cons_self _ _
        exact (List.mem_insertionSort _).mp hmem
      have hstr0 : (!isDateKey now l0) = true := List.all_eq_true.mp hallstr l0 hl0
      cases hre : reentry_date now l0 with
      | vdate dd =>
        exfalso
        unfold isDateKey at hstr0
        rw [hre] at hstr0
        exact Bool.noConfusion hstr0
      | vstr s =>
        rw [monthly_totals_cons hs, hre]
  · have hserr : pySorted now L = Except.error PyErr.typeError := by
      unfold pySorted
      rw [if_neg (by
        rintro (h2 | h2)
        · exact hnall h2
        · exact hallstr h2)]
    exact monthly_totals_error hserr

/-- C10 witness: a single wildcard record aborts with TypeError. -/
theorem claim_C10_witness :
    monthly_totals now0 [mkLaunch (PyVal.vstr "*")]
      = Except.error PyErr.typeError :=
  claim_C10 now0 [mkLaunch (PyVal.vstr "*")] (mkLaunch (PyVal.vstr "*"))
    (List.mem_singleton.mpr rfl) rfl

theorem aggLoop_single_vdate (now d : PyDate) (cur : PyDate) (tot : Nat) :
    aggLoop now [mkLaunch (PyVal.vdate d)] cur tot
      = Except.ok (flushLoop d cur tot).1 := by
  rw [aggLoop_cons_vdate [] cur tot (fun h => PyVal.noConfusion h) rfl]
  rw [show aggLoop now ([] : List Launch) (flushLoop d cur tot).2.1
      ((flushLoop d cur tot).2.2 + 1) = Except.ok [] from rfl]
  simp [Except.map]

theorem aggLoop_pair (now d1 d2 : PyDate) :
    aggLoop now [mkLaunch (PyVal.vdate d1), mkLaunch (PyVal.vdate d2)]
        (dayOne d1) 0
      = Except.ok (flushLoop d2 (dayOne d1) 1).1 := by
  have hne1 : ¬ (mkLaunch (PyVal.vdate d1)).reentry = PyVal.vstr "-" :=
    fun h => PyVal.noConfusion h
  rw [aggLoop_cons_vdate _ _ _ hne1 rfl]
  have hflush1 : flushLoop d1 (dayOne d1) 0 = ([], dayOne d1, 0) := by
    apply flushLoop_neg
    cases hpb : pdleb (increment_month (dayOne d1)) d1 with
    | false => rfl
    | true =>
      exfalso
      have hlt := mkey_lt_of_flush_test hpb
      have heq : mkey (dayOne d1) = mkey d1 := rfl
      omega
  rw [hflush1]
  show (aggLoop now [mkLaunch (PyVal.vdate d2)] (dayOne d1) 1).map
      (fun rest => [] ++ rest) = _
  rw [aggLoop_single_vdate]
  simp [Except.map]

/-- C2: the three-record scenario (reentries 2020-01-05, 2020-01-20,
2020-03-02) emits exactly the January bucket (count 2, Al 286) and the
February bucket (count 0, Al 0), and no March bucket; in general two
consecutive reentries separated by k empty months produce exactly k
zero-count buckets after the first flushed bucket. -/
theorem claim_C2 :
    (∀ now : PyDate, monthly_totals now sampleRecs
        = Except.ok [⟨"01/01/2020", 2, 286⟩, ⟨"01/02/2020", 0, 0⟩]) ∧
    (∀ (now d1 d2 : PyDate), d1.tod = 0 →
      ∃ rows, aggLoop now [mkLaunch (PyVal.vdate d1), mkLaunch (PyVal.vdate d2)]
          (dayOne d1) 0 = Except.ok rows ∧
        rows.length = mkey d2 - mkey d1 ∧
        ∀ r ∈ rows.drop 1, r.Reentered = 0) := by
  constructor
  · intro now
    rfl
  · intro now d1 d2 htod
    refine ⟨(flushLoop d2 (dayOne d1) 1).1, aggLoop_pair now d1 d2, ?_, ?_⟩
    · have hlen := flushLoopF_length (mkey d2 + 1 - mkey (dayOne d1)) d2
        (dayOne d1) 1 rfl htod rfl
      exact hlen
    · intro r hr
      cases hpb : pdleb (increment_month (dayOne d1)) d2 with
      | false =>
        rw [flushLoop_neg 1 hpb] at hr
        simp at hr
      | true =>
        rw [flushLoop_pos 1 hpb] at hr
        have hr2 : r ∈ (flushLoop d2 (increment_month (dayOne d1)) 0).1 := hr
        exact flushLoopF_zero_rows _ d2 (increment_month (dayOne d1)) r hr2

/-- C2 witness: the concrete run, and a pair of reentries three months
apart producing two empty intervening buckets. -/
theorem claim_C2_witness :
    monthly_totals now0 sampleRecs
        = Except.ok [⟨"01/01/2020", 2, 286⟩, ⟨"01/02/2020", 0, 0⟩] ∧
      ((⟨2020, 1, 15, 0, by decide, by decide, by decide⟩ : PyDate).tod = 0 ∧
        ∃ rows, aggLoop now0
            [mkLaunch (PyVal.vdate ⟨2020, 1, 15, 0, by decide, by decide, by decide⟩),
             mkLaunch (PyVal.vdate ⟨2020, 4, 2, 0, by decide, by decide, by decide⟩)]
            (dayOne ⟨2020, 1, 15, 0, by decide, by decide, by decide⟩) 0
          = Except.ok rows ∧
          rows.length = mkey ⟨2020, 4, 2, 0, by decide, by decide, by decide⟩
            - mkey ⟨2020, 1, 15, 0, by decide, by decide, by decide⟩ ∧
          ∀ r ∈ rows.drop 1, r.Reentered = 0) :=
  ⟨claim_C2.1 now0,
   rfl,
   claim_C2.2 now0 ⟨2020, 1, 15, 0, by decide, by decide, by decide⟩
     ⟨2020, 4, 2, 0, by decide, by decide, by decide⟩ rfl⟩

/-- C3 counterexample: as stated the claim is false — when a concrete
reentry date lies after the current time, the corresponding record sorts
after an unknown-sentinel record.  With now = 2020-01-01, an unknown
record and a record reentering 2021-01-01 sort with the unknown record
first. -/
theorem claim_C3_counterexample :
    ¬ (∀ (now : PyDate) (L out : List Launch), pySorted now L = Except.ok out →
        out.Pairwise (fun a b => isUnknown a = true → isUnknown b = true)) := by
  intro hclaim
  have h := hclaim ⟨2020, 1, 1, 0, by decide, by decide, by decide⟩
    [mkLaunch (PyVal.vstr "-"),
     mkLaunch (PyVal.vdate ⟨2021, 1, 1, 0, by decide, by decide, by decide⟩)]
    [mkLaunch (PyVal.vstr "-"),
     mkLaunch (PyVal.vdate ⟨2021, 1, 1, 0, by decide, by decide, by decide⟩)]
    (by decide)
  rcases List.pairwise_cons.mp h with ⟨hrel, _⟩
  have h2 := hrel _ (List.mem_singleton.mpr rfl) (by decide)
  exact absurd h2 (by decide)

/-- C3 (amended): records are consumed in non-decreasing order of their
effective sort key; provided every concrete reentry date is strictly
before the current time, unknown-sentinel records sort after all dated
records; and unconditionally the loop stops at the first unknown record,
so records from there on never contribute to any bucket. -/
theorem claim_C3_amended (now : PyDate) (L out : List Launch)
    (hs : pySorted now L = Except.ok out) :
    out.Pairwise (keyLe now) ∧
      (L.all (fun l => match l.reentry with
          | PyVal.vdate d => pdltb d now
          | PyVal.vstr _ => true) = true →
        out.Pairwise (fun a b => isUnknown a = true → isUnknown b = true)) ∧
      ∀ (ls : List Launch) (cur : PyDate) (tot : Nat), aggLoop now ls cur tot
        = aggLoop now (ls.takeWhile fun l => !(isUnknown l)) cur tot := by
  refine ⟨pySorted_sorted hs, fun hbefore => ?_,
    fun ls cur tot => aggLoop_takeWhile now ls cur tot⟩
  have hperm := pySorted_perm hs
  rcases pySorted_homogeneous hs with hall | hallstr
  · refine (pySorted_sorted hs).imp_of_mem ?_
    intro a b ha hb hab hua
    by_contra hub
    unfold isUnknown at hua hub
    have hareentry : a.reentry = PyVal.vstr "-" := of_decide_eq_true hua
    have hkeya : reentry_date now a = PyVal.vdate now :=
      reentry_date_unknown hareentry
    have hbL : b ∈ L := hperm.mem_iff.mp hb
    have hbdate : isDateKey now b = true := List.all_eq_true.mp hall b hbL
    have hbne : ¬ b.reentry = PyVal.vstr "-" := fun h => hub (decide_eq_true h)
    have hkeyb : reentry_date now b = b.reentry := reentry_date_not_unknown hbne
    cases hre : b.reentry with
    | vstr s =>
      unfold isDateKey at hbdate
      rw [hkeyb] at hbdate
      simp only [hre] at hbdate
      exact Bool.noConfusion hbdate
    | vdate db =>
      have hfb := List.all_eq_true.mp hbefore b hbL
      simp only [hre] at hfb
      unfold keyLe keyLeB at hab
      rw [hkeya, hkeyb] at hab
      simp only [hre] at hab
      exact absurd (pdleb_iff.mp hab) (not_pdle_of_pdlt (pdltb_iff.mp hfb))
  · refine (pySorted_sorted hs).imp_of_mem ?_
    intro a b ha hb hab hua
    exfalso
    unfold isUnknown at hua
    have haL : a ∈ L := hperm.mem_iff.mp ha
    have hastr : (!isDateKey now a) = true := List.all_eq_true.mp hallstr a haL
    have hareentry : a.reentry = PyVal.vstr "-" := of_decide_eq_true hua
    have hkeya : reentry_date now a = PyVal.vdate now :=
      reentry_date_unknown hareentry
    unfold isDateKey at hastr
    rw [hkeya] at hastr
    simp at hastr

/-- C3 witness: a dated record (reentry before the current time) followed
by an unknown record sorts to itself; the key order holds pairwise, the
unknown record comes last, and cutting the list at the first unknown
record does not change the aggregation. -/
theorem claim_C3_witness :
    pySorted now0
        [mkLaunch (PyVal.vdate ⟨2020, 1, 5, 0, by decide, by decide, by decide⟩),
          mkLaunch (PyVal.vstr "-")]
      = Except.ok
        [mkLaunch (PyVal.vdate ⟨2020, 1, 5, 0, by decide, by decide, by decide⟩),
          mkLaunch (PyVal.vstr "-")] ∧
      [mkLaunch (PyVal.vdate ⟨2020, 1, 5, 0, by decide, by decide, by decide⟩),
        mkLaunch (PyVal.vstr "-")].Pairwise (keyLe now0) ∧
      [mkLaunch (PyVal.vdate ⟨2020, 1, 5, 0, by decide, by decide, by decide⟩),
        mkLaunch (PyVal.vstr "-")].Pairwise
          (fun a b => isUnknown a = true → isUnknown b = true) ∧
      aggLoop now0
          [mkLaunch (PyVal.vdate ⟨2020, 1, 5, 0, by decide, by decide, by decide⟩),
            mkLaunch (PyVal.vstr "-")]
          (dayOne ⟨2020, 1, 5, 0, by decide, by decide, by decide⟩) 0
        = aggLoop now0
          ([mkLaunch (PyVal.vdate ⟨2020, 1, 5, 0, by decide, by decide, by decide⟩),
            mkLaunch (PyVal.vstr "-")].takeWhile fun l => !(isUnknown l))
          (dayOne ⟨2020, 1, 5, 0, by decide, by decide, by decide⟩) 0 :=
  ⟨by decide,
   (claim_C3_amended now0
      [mkLaunch (PyVal.vdate ⟨2020, 1, 5, 0, by decide, by decide, by decide⟩),
        mkLaunch (PyVal.vstr "-")]
      [mkLaunch (PyVal.vdate ⟨2020, 1, 5, 0, by decide, by decide, by decide⟩),
        mkLaunch (PyVal.vstr "-")] (by decide)).1,
   (claim_C3_amended now0
      [mkLaunch (PyVal.vdate ⟨2020, 1, 5, 0, by decide, by decide, by decide⟩),
        mkLaunch (PyVal.vstr "-")]
      [mkLaunch (PyVal.vdate ⟨2020, 1, 5, 0, by decide, by decide, by decide⟩),
        mkLaunch (PyVal.vstr "-")] (by decide)).2.1 (by decide),
   (claim_C3_amended now0
      [mkLaunch (PyVal.vdate ⟨2020, 1, 5, 0, by decide, by decide, by decide⟩),
        mkLaunch (PyVal.vstr "-")]
      [mkLaunch (PyVal.vdate ⟨2020, 1, 5, 0, by decide, by decide, by decide⟩),
        mkLaunch (PyVal.vstr "-")] (by decide)).2.2
     [mkLaunch (PyVal.vdate ⟨2020, 1, 5, 0, by decide, by decide, by decide⟩),
       mkLaunch (PyVal.vstr "-")]
     (dayOne ⟨2020, 1, 5, 0, by decide, by decide, by decide⟩) 0⟩
